import Mathlib

/-!
# Verification of the cw1-subkeys command-helper library

A shallow embedding of src/contracts/cw1-subkeys/helpers.ts: the typed
client that builds query and execute JSON messages for a cw1-subkeys
contract instance, the wallet keyfile load-or-create logic, the fee table
and connection setup, and a model of the remote contract state machine
(admin set with a one-way freeze, per-spender allowances).

The client code is translated directly from the TypeScript source.  The
remote contract itself is not part of this file set (only this client of
it is), so its state machine is modelled from the specification, in the
Contract namespace; every definition there says so in its doc comment.
-/

/-! ## Association lists over string keys

Small helpers used both for the filesystem model and for the modelled
contract state (one value per key). -/

/-- First value stored under a key, if any. -/
def lookupAssoc {α : Type} : List (String × α) → String → Option α
  | [], _ => none
  | (k, v) :: rest, key => if k = key then some v else lookupAssoc rest key

/-- Replace the first binding of a key, or append one. -/
def setAssoc {α : Type} : List (String × α) → String → α → List (String × α)
  | [], key, v => [(key, v)]
  | (k, w) :: rest, key, v =>
      if k = key then (key, v) :: rest else (k, w) :: setAssoc rest key v

/-- Drop every binding of a key. -/
def removeAssoc {α : Type} (l : List (String × α)) (key : String) : List (String × α) :=
  l.filter (fun p => p.1 != key)

/-- JavaScript a-or-else-b on an optional string: the fallback is taken both
when the argument is absent and when it is the empty string (falsy), as in
the source expressions (address or client.senderAddress) and
(filename or options.defaultKeyFile). -/
def jsOrElse (a : Option String) (b : String) : String :=
  match a with
  | none => b
  | some s => if s = "" then b else s

/-! ## Data model (interfaces of helpers.ts) -/

/-- Coin from the source: a denomination and an amount written as a decimal
string. -/
structure Coin where
  denom : String
  amount : String
deriving DecidableEq

/-- Expiration from the source: at a block height, at a unix-like time, or
never. -/
inductive Expiration where
  | at_height (height : Nat)
  | at_time (time : Nat)
  | never
deriving DecidableEq

/-- CosmosMsg from the source: only the bank-send variant is modelled there
(fields from_address, to_address, amount). -/
inductive CosmosMsg where
  | bankSend (from_address : String) (to_address : String) (amount : List Coin)
deriving DecidableEq

/-- AllowanceResponse from the source: a balance (one coin per denom) and an
expiration. -/
structure AllowanceResponse where
  balance : List Coin
  expires : Expiration
deriving DecidableEq

/-- AdminListResponse from the source: the admin list and the mutability
flag. -/
structure AdminListResponse where
  admins : List String
  mutable : Bool
deriving DecidableEq

/-- The result object of a remote execute call; the client returns its
transactionHash field. -/
structure ExecuteResult where
  transactionHash : String
deriving DecidableEq

/-- The query messages the client builds: allowance with a spender, and
admin_list with no field. -/
inductive QueryMsg where
  | allowance (spender : String)
  | admin_list
deriving DecidableEq

/-- The execute messages the client builds, one constructor per object
literal in the source. -/
inductive ExecMsg where
  | freeze
  | update_admins (admins : List String)
  | execute (msgs : List CosmosMsg)
  | increase_allowance (spender : String) (amount : Coin) (expires : Option Expiration)
  | decrease_allowance (spender : String) (amount : Coin) (expires : Option Expiration)
deriving DecidableEq

/-! ## The JSON wire shape of each message

The source submits plain object literals; these encoders spell out the JSON
each typed message stands for, field names as written in the source.  An
absent optional field is omitted, as JSON serialization of an undefined
property does. -/

/-- JSON values. -/
inductive Json where
  | str (s : String)
  | num (n : Nat)
  | arr (elems : List Json)
  | obj (fields : List (String × Json))

/-- JSON of a Coin. -/
def encodeCoin (c : Coin) : Json :=
  Json.obj [("denom", Json.str c.denom), ("amount", Json.str c.amount)]

/-- JSON of an Expiration. -/
def encodeExpiration : Expiration → Json
  | Expiration.at_height h => Json.obj [("at_height", Json.obj [("height", Json.num h)])]
  | Expiration.at_time t => Json.obj [("at_time", Json.obj [("time", Json.num t)])]
  | Expiration.never => Json.obj [("never", Json.obj [])]

/-- JSON of a CosmosMsg (the bank-send variant). -/
def encodeCosmosMsg : CosmosMsg → Json
  | CosmosMsg.bankSend f t amount =>
      Json.obj [("bank", Json.obj [("send", Json.obj
        [("from_address", Json.str f), ("to_address", Json.str t),
         ("amount", Json.arr (amount.map encodeCoin))])])]

/-- The expires field when present, nothing when absent. -/
def encodeOptExpires : Option Expiration → List (String × Json)
  | none => []
  | some e => [("expires", encodeExpiration e)]

/-- JSON of a query message. -/
def encodeQuery : QueryMsg → Json
  | QueryMsg.allowance spender =>
      Json.obj [("allowance", Json.obj [("spender", Json.str spender)])]
  | QueryMsg.admin_list => Json.obj [("admin_list", Json.obj [])]

/-- JSON of an execute message. -/
def encodeExec : ExecMsg → Json
  | ExecMsg.freeze => Json.obj [("freeze", Json.obj [])]
  | ExecMsg.update_admins admins =>
      Json.obj [("update_admins", Json.obj [("admins", Json.arr (admins.map Json.str))])]
  | ExecMsg.execute msgs =>
      Json.obj [("execute", Json.obj [("msgs", Json.arr (msgs.map encodeCosmosMsg))])]
  | ExecMsg.increase_allowance spender amount expires =>
      Json.obj [("increase_allowance", Json.obj
        ([("spender", Json.str spender), ("amount", encodeCoin amount)]
          ++ encodeOptExpires expires))]
  | ExecMsg.decrease_allowance spender amount expires =>
      Json.obj [("decrease_allowance", Json.obj
        ([("spender", Json.str spender), ("amount", encodeCoin amount)]
          ++ encodeOptExpires expires))]

/-! ## The typed client (CW1(client).use(contractAddress) in the source)

Each operation is parameterized by the transport it calls
(client.queryContractSmart for reads, client.execute for writes), exactly
as the source closures capture the SigningCosmWasmClient.  Every mutating
operation submits one message and returns the transactionHash field of the
response. -/

namespace CW1

/-- allowance from the source: query with the given spender, defaulting to
the client sender address when the argument is absent or falsy. -/
def allowance (queryContractSmart : String → QueryMsg → AllowanceResponse)
    (senderAddress contractAddress : String) (address : Option String) : AllowanceResponse :=
  let spender := jsOrElse address senderAddress
  queryContractSmart contractAddress (QueryMsg.allowance spender)

/-- admins from the source: the admin_list query. -/
def admins (queryContractSmart : String → QueryMsg → AdminListResponse)
    (contractAddress : String) : AdminListResponse :=
  queryContractSmart contractAddress QueryMsg.admin_list

/-- freeze from the source. -/
def freeze (execute : String → ExecMsg → ExecuteResult) (contractAddress : String) : String :=
  (execute contractAddress ExecMsg.freeze).transactionHash

/-- updateAdmins from the source. -/
def updateAdmins (execute : String → ExecMsg → ExecuteResult)
    (contractAddress : String) (admins : List String) : String :=
  (execute contractAddress (ExecMsg.update_admins admins)).transactionHash

/-- execute from the source: wraps a list of CosmosMsg. -/
def execute (execute : String → ExecMsg → ExecuteResult)
    (contractAddress : String) (msgs : List CosmosMsg) : String :=
  (execute contractAddress (ExecMsg.execute msgs)).transactionHash

/-- increaseAllowance from the source. -/
def increaseAllowance (execute : String → ExecMsg → ExecuteResult)
    (contractAddress : String) (spender : String) (amount : Coin)
    (expires : Option Expiration) : String :=
  (execute contractAddress (ExecMsg.increase_allowance spender amount expires)).transactionHash

/-- decreaseAllowance from the source. -/
def decreaseAllowance (execute : String → ExecMsg → ExecuteResult)
    (contractAddress : String) (spender : String) (amount : Coin)
    (expires : Option Expiration) : String :=
  (execute contractAddress (ExecMsg.decrease_allowance spender amount expires)).transactionHash

end CW1

/-! ## Wallet, options and connection (useOptions in the source)

The cosmjs collaborators (key generation, encryption, the filesystem, the
account lookup) are opaque to the source and enter here as function
parameters; the control flow around them is translated from the source. -/

/-- One component of an HD derivation path (opaque cosmjs value). -/
structure Slip10RawIndex where
  value : Nat
deriving DecidableEq

/-- Options from the source.  gasPrice is a rational standing for the
JavaScript number 0.025. -/
structure Options where
  httpUrl : String
  networkId : String
  feeToken : String
  gasPrice : ℚ
  bech32prefix : String
  hdPath : List Slip10RawIndex
  faucetToken : String
  faucetUrl : Option String
  defaultKeyFile : String
deriving DecidableEq

/-- The ambient collaborators the options constant reads: the cosmjs
makeCosmoshubPath function, the HOME environment variable and path.join. -/
structure ExternalEnv where
  makeCosmoshubPath : Nat → List Slip10RawIndex
  homeDir : String
  joinPath : String → String → String

/-- coralnetOptions from the source, its environment-dependent fields
(hdPath, defaultKeyFile) computed through the ambient collaborators. -/
def coralnetOptions (ext : ExternalEnv) : Options :=
  { httpUrl := "https://lcd.coralnet.cosmwasm.com"
  , networkId := "cosmwasm-coral"
  , feeToken := "ushell"
  , gasPrice := 25 / 1000
  , bech32prefix := "coral"
  , hdPath := ext.makeCosmoshubPath 0
  , faucetToken := "SHELL"
  , faucetUrl := some "https://faucet.coralnet.cosmwasm.com/credit"
  , defaultKeyFile := ext.joinPath ext.homeDir ".coral.key" }

/-- A Secp256k1Wallet as the source observes it: only its mnemonic is read
directly; its address comes through the getAddress collaborator. -/
structure Wallet where
  mnemonic : String
deriving DecidableEq

/-- The cosmjs wallet operations the source awaits: generate(12, hdPath,
bech32prefix), serialize(password), deserialize(encrypted, password) which
fails on a bad password (none), and getAccounts()[0].address. -/
structure WalletOps where
  generate : Nat → List Slip10RawIndex → String → Wallet
  serialize : Wallet → String → String
  deserialize : String → String → Option Wallet
  getAddress : Wallet → String

/-- The local filesystem as a map from path to contents. -/
structure FS where
  files : List (String × String)
deriving DecidableEq

/-- readFileSync: some contents, or none where the source catches the
thrown error. -/
def FS.read (fs : FS) (filename : String) : Option String :=
  lookupAssoc fs.files filename

/-- writeFileSync. -/
def FS.write (fs : FS) (filename contents : String) : FS :=
  { files := setAssoc fs.files filename contents }

/-- loadOrCreateWallet from the source: when the file cannot be read,
generate a fresh wallet, encrypt it and write the keyfile; otherwise
decrypt the existing file, raising the error (none) on a bad password
without touching the file.  The result pairs the filesystem after the call
with the wallet, none standing for the raised error. -/
def loadOrCreateWallet (wops : WalletOps) (options : Options) (fs : FS)
    (filename password : String) : FS × Option Wallet :=
  match FS.read fs filename with
  | none =>
      let wallet := wops.generate 12 options.hdPath options.bech32prefix
      let encrypted := wops.serialize wallet password
      (FS.write fs filename encrypted, some wallet)
  | some encrypted =>
      match wops.deserialize encrypted password with
      | none => (fs, none)
      | some wallet => (fs, some wallet)

/-- A fee entry of the fee table. -/
structure StdFee where
  amount : List Coin
  gas : String
deriving DecidableEq

/-- FeeTable from the source. -/
structure FeeTable where
  upload : StdFee
  init : StdFee
  migrate : StdFee
  exec : StdFee
  send : StdFee
  changeAdmin : StdFee
deriving DecidableEq

/-- stdFee from the source: amount is the floor of gas times price, printed
in decimal. -/
def stdFee (gas : Nat) (denom : String) (price : ℚ) : StdFee :=
  { amount := [{ amount := toString (Int.floor ((gas : ℚ) * price)), denom := denom }]
  , gas := toString gas }

/-- buildFeeTable from the source. -/
def buildFeeTable (options : Options) : FeeTable :=
  { upload := stdFee 1500000 options.feeToken options.gasPrice
  , init := stdFee 600000 options.feeToken options.gasPrice
  , migrate := stdFee 600000 options.feeToken options.gasPrice
  , exec := stdFee 200000 options.feeToken options.gasPrice
  , send := stdFee 80000 options.feeToken options.gasPrice
  , changeAdmin := stdFee 80000 options.feeToken options.gasPrice }

/-- The SigningCosmWasmClient as the source constructs it: the endpoint,
the sender address of the wallet, the wallet and the fee table. -/
structure SigningCosmWasmClient where
  httpUrl : String
  senderAddress : String
  wallet : Wallet
  feeTable : FeeTable
deriving DecidableEq

/-- connect from the source. -/
def connect (wops : WalletOps) (wallet : Wallet) (options : Options) : SigningCosmWasmClient :=
  { httpUrl := options.httpUrl
  , senderAddress := wops.getAddress wallet
  , wallet := wallet
  , feeTable := buildFeeTable options }

/-- The one-shot faucet POST of hitFaucet: axios.post(faucetUrl,
with ticker and address). -/
structure FaucetCall where
  faucetUrl : String
  ticker : String
  address : String
deriving DecidableEq

/-- setup from the source: resolve the keyfile from the argument or the
defaultKeyFile of the options argument, load or create the wallet and
connect - both against the fixed coralnetOptions constant - then, when the
options argument carries a truthy faucetUrl and the account does not exist
yet, hit the faucet.  A raised wallet error propagates as none.  Console
output is not modelled. -/
def setup (wops : WalletOps) (ext : ExternalEnv) (accountExists : String → Bool)
    (options : Options) (fs : FS) (password : String) (filename : Option String) :
    FS × Option (SigningCosmWasmClient × Option FaucetCall) :=
  let keyfile := jsOrElse filename options.defaultKeyFile
  match loadOrCreateWallet wops (coralnetOptions ext) fs keyfile password with
  | (fs2, none) => (fs2, none)
  | (fs2, some wallet) =>
      let client := connect wops wallet (coralnetOptions ext)
      let faucet :=
        match options.faucetUrl with
        | none => none
        | some url =>
            if url = "" then none
            else if accountExists client.senderAddress then none
            else some { faucetUrl := url, ticker := options.faucetToken
                      , address := client.senderAddress }
      (fs2, some (client, faucet))

/-- recoverMnemonic from the source: same keyfile resolution and wallet
load against the fixed coralnetOptions constant, returning the mnemonic. -/
def recoverMnemonic (wops : WalletOps) (ext : ExternalEnv)
    (options : Options) (fs : FS) (password : String) (filename : Option String) :
    FS × Option String :=
  let keyfile := jsOrElse filename options.defaultKeyFile
  match loadOrCreateWallet wops (coralnetOptions ext) fs keyfile password with
  | (fs2, none) => (fs2, none)
  | (fs2, some wallet) => (fs2, some wallet.mnemonic)

/-! ## The remote contract state machine, modelled from the spec

The cw1-subkeys contract itself is not among the files here; only this
client of it is.  The specification describes its externally observable
state (admin set with a one-way mutability latch, per-spender allowances
keyed by denom with an expiration) and the acceptance rules of each
execute variant, and the definitions below model exactly that.  Amount
strings are parsed as non-negative decimal integers, as the specification
states them to be. -/

/-- Decidable equality of results, so that concrete runs of the model can
be checked by evaluation. -/
instance {ε α : Type} [DecidableEq ε] [DecidableEq α] : DecidableEq (Except ε α) := fun a b =>
  match a, b with
  | Except.ok x, Except.ok y => decidable_of_iff (x = y) (by simp)
  | Except.error e, Except.error f => decidable_of_iff (e = f) (by simp)
  | Except.ok _, Except.error _ => Decidable.isFalse (by simp)
  | Except.error _, Except.ok _ => Decidable.isFalse (by simp)

/-- Modelled from the spec: a digit character read as a decimal digit. -/
def digitVal? (c : Char) : Option Nat :=
  if c.isDigit then some (c.toNat - 48) else none

/-- Modelled from the spec: fold decimal digits left to right. -/
def decNatAux : List Char → Nat → Option Nat
  | [], acc => some acc
  | c :: rest, acc =>
      match digitVal? c with
      | none => none
      | some d => decNatAux rest (acc * 10 + d)

/-- Modelled from the spec: an amount string as a non-negative decimal
integer; a string that is not one is rejected by the remote contract. -/
def parseDecNat? (s : String) : Option Nat :=
  match s.data with
  | [] => none
  | l => decNatAux l 0

namespace Contract

/-- Modelled from the spec: the value of one allowance grant, a balance
with one amount per denom and an expiration. -/
structure AllowanceInfo where
  balance : List (String × Nat)
  expires : Expiration
deriving DecidableEq

/-- Modelled from the spec: the externally observable contract state - the
ordered admin set, the mutability flag, and the per-spender allowances. -/
structure ContractState where
  admins : List String
  mutable : Bool
  allowances : List (String × AllowanceInfo)
deriving DecidableEq

/-- Modelled from the spec: every rejected write surfaces to the client as
a RemoteExecutionError. -/
inductive RemoteError where
  | remoteExecutionError
deriving DecidableEq

/-- Modelled from the spec: block height and time of the transaction
evaluating an expiration. -/
structure Env where
  height : Nat
  time : Nat
deriving DecidableEq

/-- Modelled from the spec: an at-height or at-time expiration that has
been reached ends the validity of the grant; never does not. -/
def isExpired (e : Expiration) (env : Env) : Bool :=
  match e with
  | Expiration.at_height h => decide (h ≤ env.height)
  | Expiration.at_time t => decide (t ≤ env.time)
  | Expiration.never => false

/-- Modelled from the spec: the admin_list query, returning the admin set
and the mutability flag; a read never mutates state. -/
def adminList (st : ContractState) : AdminListResponse :=
  { admins := st.admins, mutable := st.mutable }

/-- Modelled from the spec: the allowance query; a spender with no grant
reads as an empty balance with no expiry, not as an error. -/
def allowanceQuery (st : ContractState) (spender : String) : AllowanceResponse :=
  match lookupAssoc st.allowances spender with
  | none => { balance := [], expires := Expiration.never }
  | some info =>
      { balance := info.balance.map (fun p => { denom := p.1, amount := toString p.2 })
      , expires := info.expires }

/-- The balance of a spender for one denom, zero when absent. -/
def balanceOf (st : ContractState) (spender denom : String) : Nat :=
  match lookupAssoc st.allowances spender with
  | none => 0
  | some info => (lookupAssoc info.balance denom).getD 0

/-- Modelled from the spec: freeze is admin-only and rejected when already
frozen; on success it clears the mutability flag. -/
def freezeRun (sender : String) (st : ContractState) : Except RemoteError ContractState :=
  if sender ∈ st.admins ∧ st.mutable = true then
    Except.ok { st with mutable := false }
  else Except.error RemoteError.remoteExecutionError

/-- Modelled from the spec: update_admins is admin-only, rejected once
frozen, and replaces the entire admin set with the submitted list. -/
def updateAdminsRun (sender : String) (admins : List String) (st : ContractState) :
    Except RemoteError ContractState :=
  if sender ∈ st.admins ∧ st.mutable = true then
    Except.ok { st with admins := admins }
  else Except.error RemoteError.remoteExecutionError

/-- Modelled from the spec: increase_allowance is admin-only; it adds the
amount to the spender balance for that denom, creating the entry when
absent, and a supplied expiration replaces the stored one. -/
def increaseRun (sender spender : String) (amount : Coin) (expires : Option Expiration)
    (st : ContractState) : Except RemoteError ContractState :=
  if sender ∈ st.admins then
    match parseDecNat? amount.amount with
    | none => Except.error RemoteError.remoteExecutionError
    | some n =>
        let info := (lookupAssoc st.allowances spender).getD
          { balance := [], expires := Expiration.never }
        let cur := (lookupAssoc info.balance amount.denom).getD 0
        let info2 : AllowanceInfo :=
          { balance := setAssoc info.balance amount.denom (cur + n)
          , expires := expires.getD info.expires }
        Except.ok { st with allowances := setAssoc st.allowances spender info2 }
  else Except.error RemoteError.remoteExecutionError

/-- Modelled from the spec: decrease_allowance is admin-only; it subtracts
the amount from the spender balance for that denom and is rejected when
the balance would go negative (in particular when no grant exists); a
balance reaching zero leaves the denom absent. -/
def decreaseRun (sender spender : String) (amount : Coin) (expires : Option Expiration)
    (st : ContractState) : Except RemoteError ContractState :=
  if sender ∈ st.admins then
    match parseDecNat? amount.amount with
    | none => Except.error RemoteError.remoteExecutionError
    | some n =>
        match lookupAssoc st.allowances spender with
        | none => Except.error RemoteError.remoteExecutionError
        | some info =>
            let cur := (lookupAssoc info.balance amount.denom).getD 0
            if cur < n then Except.error RemoteError.remoteExecutionError
            else
              let info2 : AllowanceInfo :=
                { balance :=
                    if cur - n = 0 then removeAssoc info.balance amount.denom
                    else setAssoc info.balance amount.denom (cur - n)
                , expires := expires.getD info.expires }
              Except.ok { st with allowances := setAssoc st.allowances spender info2 }
  else Except.error RemoteError.remoteExecutionError

/-- Modelled from the spec: the aggregate spend of a coin list, added onto
an accumulator, one total per denom; a malformed amount rejects. -/
def coinsSpend : List (String × Nat) → List Coin → Option (List (String × Nat))
  | req, [] => some req
  | req, c :: rest =>
      match parseDecNat? c.amount with
      | none => none
      | some n =>
          coinsSpend (setAssoc req c.denom ((lookupAssoc req c.denom).getD 0 + n)) rest

/-- Modelled from the spec: the aggregate spend per denom across a message
batch (each message a bank send). -/
def msgsSpend : List (String × Nat) → List CosmosMsg → Option (List (String × Nat))
  | req, [] => some req
  | req, CosmosMsg.bankSend _ _ amount :: rest =>
      match coinsSpend req amount with
      | none => none
      | some req2 => msgsSpend req2 rest

/-- Modelled from the spec: deduct an aggregate spend from a balance, a
denom reaching zero dropping out. -/
def subBalance (balance : List (String × Nat)) (req : List (String × Nat)) :
    List (String × Nat) :=
  req.foldl (fun b p =>
    if (lookupAssoc b p.1).getD 0 - p.2 = 0 then removeAssoc b p.1
    else setAssoc b p.1 ((lookupAssoc b p.1).getD 0 - p.2)) balance

/-- Modelled from the spec: the execute variant - an admin passes freely;
any other caller needs an un-expired grant whose balance covers the
aggregate spend of the whole batch, which is then deducted; the batch is
atomic, so a rejection changes nothing. -/
def executeRun (env : Env) (sender : String) (msgs : List CosmosMsg) (st : ContractState) :
    Except RemoteError ContractState :=
  if sender ∈ st.admins then Except.ok st
  else
    match lookupAssoc st.allowances sender with
    | none => Except.error RemoteError.remoteExecutionError
    | some info =>
        if isExpired info.expires env then Except.error RemoteError.remoteExecutionError
        else
          match msgsSpend [] msgs with
          | none => Except.error RemoteError.remoteExecutionError
          | some req =>
              if req.all (fun p => p.2 ≤ (lookupAssoc info.balance p.1).getD 0) then
                let info2 : AllowanceInfo := { info with balance := subBalance info.balance req }
                Except.ok { st with allowances := setAssoc st.allowances sender info2 }
              else Except.error RemoteError.remoteExecutionError

/-- Modelled from the spec: one step of the remote state machine, the
message dispatched to its handler. -/
def execMsg (env : Env) (sender : String) (msg : ExecMsg) (st : ContractState) :
    Except RemoteError ContractState :=
  match msg with
  | ExecMsg.freeze => freezeRun sender st
  | ExecMsg.update_admins admins => updateAdminsRun sender admins st
  | ExecMsg.execute msgs => executeRun env sender msgs st
  | ExecMsg.increase_allowance spender amount expires =>
      increaseRun sender spender amount expires st
  | ExecMsg.decrease_allowance spender amount expires =>
      decreaseRun sender spender amount expires st

/-- One submitted transaction: its evaluation environment, its sender and
its message. -/
structure TimedAction where
  env : Env
  sender : String
  msg : ExecMsg

/-- Modelled from the spec: the ledger applies a transaction atomically; a
rejected one leaves the state exactly as it was. -/
def applyAction (st : ContractState) (a : TimedAction) : ContractState :=
  match execMsg a.env a.sender a.msg st with
  | Except.ok st2 => st2
  | Except.error _ => st

/-- A whole history of submitted transactions, applied in order. -/
def runActions (st : ContractState) (acts : List TimedAction) : ContractState :=
  acts.foldl applyAction st

/-- The state with one spender allowance entry replaced or created, the
shape every successful allowance-changing handler returns. -/
def withAllowance (st : ContractState) (spender : String) (info : AllowanceInfo) :
    ContractState :=
  { st with allowances := setAssoc st.allowances spender info }

/-- Whether a transaction is an increase_allowance grant to a given
spender. -/
def grantsTo (s : String) (a : TimedAction) : Bool :=
  match a.msg with
  | ExecMsg.increase_allowance spender _ _ => spender == s
  | _ => false

end Contract

/-! ## Helper lemmas -/

theorem lookupAssoc_set_self {α : Type} (l : List (String × α)) (k : String) (v : α) :
    lookupAssoc (setAssoc l k v) k = some v := by
  induction l with
  | nil => simp [setAssoc, lookupAssoc]
  | cons p rest ih =>
      obtain ⟨a, b⟩ := p
      by_cases h : a = k
      · simp [setAssoc, lookupAssoc, h]
      · simp [setAssoc, lookupAssoc, h, ih]

theorem lookupAssoc_set_ne {α : Type} (l : List (String × α)) (k k2 : String) (v : α)
    (h : k2 ≠ k) : lookupAssoc (setAssoc l k v) k2 = lookupAssoc l k2 := by
  induction l with
  | nil => simp [setAssoc, lookupAssoc, Ne.symm h]
  | cons p rest ih =>
      obtain ⟨a, b⟩ := p
      by_cases ha : a = k
      · subst ha
        simp [setAssoc, lookupAssoc, Ne.symm h]
      · simp [setAssoc, lookupAssoc, ha, ih]

theorem lookupAssoc_remove_self {α : Type} (l : List (String × α)) (k : String) :
    lookupAssoc (removeAssoc l k) k = none := by
  induction l with
  | nil => simp [removeAssoc, lookupAssoc]
  | cons p rest ih =>
      obtain ⟨a, b⟩ := p
      by_cases h : a = k
      · simp [removeAssoc, List.filter_cons, bne_iff_ne, h] at ih ⊢
        exact ih
      · simp [removeAssoc, List.filter_cons, bne_iff_ne, h, lookupAssoc] at ih ⊢
        exact ih

theorem execMsg_ok_mutable (env : Contract.Env) (sender : String) (msg : ExecMsg)
    (st st2 : Contract.ContractState)
    (h : Contract.execMsg env sender msg st = Except.ok st2) :
    st2.mutable = false ∨ st2.mutable = st.mutable := by
  cases msg <;>
    simp only [Contract.execMsg, Contract.freezeRun, Contract.updateAdminsRun,
      Contract.increaseRun, Contract.decreaseRun, Contract.executeRun] at h
  all_goals repeat' split at h
  all_goals
    first
      | exact Except.noConfusion h
      | (injection h with h2; subst h2; simp)

theorem applyAction_mutable (st : Contract.ContractState) (a : Contract.TimedAction)
    (hmut : st.mutable = false) : (Contract.applyAction st a).mutable = false := by
  obtain ⟨env, sender, msg⟩ := a
  simp only [Contract.applyAction]
  cases hexec : Contract.execMsg env sender msg st with
  | ok st2 =>
      rcases execMsg_ok_mutable env sender msg st st2 hexec with h | h
      · exact h
      · rw [h, hmut]
  | error e => exact hmut

theorem runActions_mutable (acts : List Contract.TimedAction) :
    ∀ st : Contract.ContractState, st.mutable = false →
      (Contract.runActions st acts).mutable = false := by
  induction acts with
  | nil => intro st hmut; exact hmut
  | cons a rest ih =>
      intro st hmut
      simp only [Contract.runActions, List.foldl_cons] at *
      exact ih _ (applyAction_mutable st a hmut)

theorem updateAdminsRun_frozen (sender : String) (admins : List String)
    (st : Contract.ContractState) (hmut : st.mutable = false) :
    Contract.updateAdminsRun sender admins st
      = Except.error Contract.RemoteError.remoteExecutionError := by
  simp [Contract.updateAdminsRun, hmut]

theorem freezeRun_ok_mutable (sender : String) (st st2 : Contract.ContractState)
    (h : Contract.freezeRun sender st = Except.ok st2) : st2.mutable = false := by
  unfold Contract.freezeRun at h
  split at h
  · injection h with h2; subst h2; rfl
  · exact Except.noConfusion h

/-- C1: after a successful freeze, the mutability flag is false and stays
false under every subsequent history; any later update_admins is rejected
and the admin_list query never again reports the set as mutable. -/
theorem freeze_is_one_way_latch (env : Contract.Env) (sender : String)
    (st st2 : Contract.ContractState) (acts : List Contract.TimedAction)
    (env2 : Contract.Env) (sender2 : String) (admins2 : List String)
    (h : Contract.execMsg env sender ExecMsg.freeze st = Except.ok st2) :
    st2.mutable = false
    ∧ (Contract.runActions st2 acts).mutable = false
    ∧ Contract.execMsg env2 sender2 (ExecMsg.update_admins admins2)
        (Contract.runActions st2 acts)
        = Except.error Contract.RemoteError.remoteExecutionError
    ∧ (Contract.adminList (Contract.runActions st2 acts)).mutable = false := by
  have h0 : st2.mutable = false := freezeRun_ok_mutable sender st st2 h
  have h1 := runActions_mutable acts st2 h0
  refine ⟨h0, h1, ?_, h1⟩
  simpa only [Contract.execMsg] using
    updateAdminsRun_frozen sender2 admins2 (Contract.runActions st2 acts) h1

theorem freeze_is_one_way_latch_witness :
    (⟨["alice"], false, []⟩ : Contract.ContractState).mutable = false
    ∧ (Contract.runActions ⟨["alice"], false, []⟩
        [⟨⟨1, 1⟩, "alice", ExecMsg.update_admins ["bob"]⟩]).mutable = false
    ∧ Contract.execMsg ⟨2, 2⟩ "alice" (ExecMsg.update_admins ["bob"])
        (Contract.runActions ⟨["alice"], false, []⟩
          [⟨⟨1, 1⟩, "alice", ExecMsg.update_admins ["bob"]⟩])
        = Except.error Contract.RemoteError.remoteExecutionError
    ∧ (Contract.adminList (Contract.runActions ⟨["alice"], false, []⟩
        [⟨⟨1, 1⟩, "alice", ExecMsg.update_admins ["bob"]⟩])).mutable = false :=
  freeze_is_one_way_latch ⟨0, 0⟩ "alice" ⟨["alice"], true, []⟩ ⟨["alice"], false, []⟩
    [⟨⟨1, 1⟩, "alice", ExecMsg.update_admins ["bob"]⟩] ⟨2, 2⟩ "alice" ["bob"] (by decide)

theorem applyAction_no_grant (s : String) (st : Contract.ContractState)
    (a : Contract.TimedAction) (hng : Contract.grantsTo s a = false)
    (h0 : lookupAssoc st.allowances s = none) :
    lookupAssoc (Contract.applyAction st a).allowances s = none := by
  obtain ⟨env, sender, msg⟩ := a
  simp only [Contract.applyAction]
  cases msg with
  | freeze =>
      by_cases hc : sender ∈ st.admins ∧ st.mutable = true <;>
        simp [Contract.execMsg, Contract.freezeRun, hc, h0]
  | update_admins adm =>
      by_cases hc : sender ∈ st.admins ∧ st.mutable = true <;>
        simp [Contract.execMsg, Contract.updateAdminsRun, hc, h0]
  | increase_allowance sp c e =>
      have hne : s ≠ sp := by
        simp only [Contract.grantsTo, beq_eq_false_iff_ne] at hng
        exact Ne.symm hng
      by_cases hadm : sender ∈ st.admins
      · cases hp : parseDecNat? c.amount with
        | none => simp [Contract.execMsg, Contract.increaseRun, hadm, hp, h0]
        | some n =>
            simp [Contract.execMsg, Contract.increaseRun, hadm, hp,
              lookupAssoc_set_ne _ _ _ _ hne, h0]
      · simp [Contract.execMsg, Contract.increaseRun, hadm, h0]
  | decrease_allowance sp c e =>
      by_cases hadm : sender ∈ st.admins
      · cases hp : parseDecNat? c.amount with
        | none => simp [Contract.execMsg, Contract.decreaseRun, hadm, hp, h0]
        | some n =>
            cases hl : lookupAssoc st.allowances sp with
            | none => simp [Contract.execMsg, Contract.decreaseRun, hadm, hp, hl, h0]
            | some info =>
                have hne : s ≠ sp := by
                  intro hss; subst hss; rw [h0] at hl; exact Option.noConfusion hl
                by_cases hcur : (lookupAssoc info.balance c.denom).getD 0 < n
                · simp [Contract.execMsg, Contract.decreaseRun, hadm, hp, hl, hcur, h0]
                · simp [Contract.execMsg, Contract.decreaseRun, hadm, hp, hl, hcur,
                    lookupAssoc_set_ne _ _ _ _ hne, h0]
      · simp [Contract.execMsg, Contract.decreaseRun, hadm, h0]
  | execute msgs =>
      by_cases hadm : sender ∈ st.admins
      · simp [Contract.execMsg, Contract.executeRun, hadm, h0]
      · cases hl : lookupAssoc st.allowances sender with
        | none => simp [Contract.execMsg, Contract.executeRun, hadm, hl, h0]
        | some info =>
            have hne : s ≠ sender := by
              intro hss; subst hss; rw [h0] at hl; exact Option.noConfusion hl
            by_cases hexp : Contract.isExpired info.expires env = true
            · simp [Contract.execMsg, Contract.executeRun, hadm, hl, hexp, h0]
            · cases hms : Contract.msgsSpend [] msgs with
              | none =>
                  simp [Contract.execMsg, Contract.executeRun, hadm, hl, hexp, hms, h0]
              | some req =>
                  by_cases hall :
                      req.all (fun p => p.2 ≤ (lookupAssoc info.balance p.1).getD 0) = true
                  · simp [Contract.execMsg, Contract.executeRun, hadm, hl, hexp, hms, hall,
                      lookupAssoc_set_ne _ _ _ _ hne, h0]
                  · simp [Contract.execMsg, Contract.executeRun, hadm, hl, hexp, hms, hall, h0]

theorem runActions_no_grant (s : String) (acts : List Contract.TimedAction) :
    ∀ st : Contract.ContractState, (∀ a ∈ acts, Contract.grantsTo s a = false) →
      lookupAssoc st.allowances s = none →
      lookupAssoc (Contract.runActions st acts).allowances s = none := by
  induction acts with
  | nil => intro st _ h0; exact h0
  | cons a rest ih =>
      intro st hng h0
      simp only [Contract.runActions, List.foldl_cons] at *
      exact ih _ (fun b hb => hng b (List.mem_cons_of_mem a hb))
        (applyAction_no_grant s st a (hng a (List.mem_cons_self a rest)) h0)

/-- C2: a spender that never received a grant reads as an empty balance
with no expiry from the allowance query - a plain value, not an error. -/
theorem allowance_no_grant_is_empty (init : Contract.ContractState)
    (acts : List Contract.TimedAction) (s : String)
    (h0 : lookupAssoc init.allowances s = none)
    (hng : ∀ a ∈ acts, Contract.grantsTo s a = false) :
    Contract.allowanceQuery (Contract.runActions init acts) s
      = { balance := [], expires := Expiration.never } := by
  have hnone := runActions_no_grant s acts init hng h0
  simp [Contract.allowanceQuery, hnone]

theorem allowance_no_grant_is_empty_witness :
    Contract.allowanceQuery
      (Contract.runActions ⟨["alice"], true, []⟩
        [⟨⟨0, 0⟩, "alice", ExecMsg.update_admins ["alice", "dave"]⟩,
         ⟨⟨0, 0⟩, "alice", ExecMsg.increase_allowance "carol" ⟨"x", "5"⟩ none⟩,
         ⟨⟨0, 0⟩, "alice", ExecMsg.freeze⟩]) "bob"
      = { balance := [], expires := Expiration.never } :=
  allowance_no_grant_is_empty ⟨["alice"], true, []⟩
    [⟨⟨0, 0⟩, "alice", ExecMsg.update_admins ["alice", "dave"]⟩,
     ⟨⟨0, 0⟩, "alice", ExecMsg.increase_allowance "carol" ⟨"x", "5"⟩ none⟩,
     ⟨⟨0, 0⟩, "alice", ExecMsg.freeze⟩] "bob" (by decide) (by decide)

/-- C3: a successful increase_allowance adds the parsed amount to the
spender balance for that denom, creating the entry when absent; from no
grant, the follow-up allowance query reports that coin. -/
theorem increaseAllowance_adds (env : Contract.Env) (sender : String)
    (st : Contract.ContractState) (spender denom amt : String) (n : Nat)
    (expires : Option Expiration)
    (hadmin : sender ∈ st.admins) (hn : parseDecNat? amt = some n) :
    ∃ st2,
      Contract.execMsg env sender (ExecMsg.increase_allowance spender ⟨denom, amt⟩ expires) st
        = Except.ok st2
      ∧ Contract.balanceOf st2 spender denom = Contract.balanceOf st spender denom + n
      ∧ (lookupAssoc st.allowances spender = none →
          (⟨denom, toString n⟩ : Coin) ∈ (Contract.allowanceQuery st2 spender).balance) := by
  cases hl : lookupAssoc st.allowances spender with
  | none =>
      refine ⟨{ st with allowances := setAssoc st.allowances spender
                          (⟨[(denom, n)], expires.getD Expiration.never⟩ :
                            Contract.AllowanceInfo) }, ?_, ?_, ?_⟩
      · simp [Contract.execMsg, Contract.increaseRun, hadmin, hn, hl, setAssoc, lookupAssoc]
      · simp [Contract.balanceOf, hl, lookupAssoc_set_self, lookupAssoc]
      · intro _
        simp [Contract.allowanceQuery, lookupAssoc_set_self]
  | some info =>
      refine ⟨{ st with allowances := setAssoc st.allowances spender
                          (⟨setAssoc info.balance denom
                              ((lookupAssoc info.balance denom).getD 0 + n),
                            expires.getD info.expires⟩ :
                            Contract.AllowanceInfo) }, ?_, ?_, ?_⟩
      · simp [Contract.execMsg, Contract.increaseRun, hadmin, hn, hl]
      · simp [Contract.balanceOf, hl, lookupAssoc_set_self]
      · intro hnone
        exact Option.noConfusion hnone

theorem increaseAllowance_adds_witness :
    ∃ st2,
      Contract.execMsg ⟨0, 0⟩ "alice"
          (ExecMsg.increase_allowance "bob" ⟨"x", "100"⟩ none) ⟨["alice"], true, []⟩
        = Except.ok st2
      ∧ Contract.balanceOf st2 "bob" "x"
          = Contract.balanceOf ⟨["alice"], true, []⟩ "bob" "x" + 100
      ∧ (lookupAssoc (Contract.ContractState.allowances ⟨["alice"], true, []⟩) "bob" = none →
          (⟨"x", toString 100⟩ : Coin) ∈ (Contract.allowanceQuery st2 "bob").balance) :=
  increaseAllowance_adds ⟨0, 0⟩ "alice" ⟨["alice"], true, []⟩ "bob" "x" "100" 100 none
    (by decide) (by decide)

theorem removeAssoc_map_all (l : List (String × Nat)) (denom : String) :
    ((removeAssoc l denom).map (fun p => (⟨p.1, toString p.2⟩ : Coin))).all
      (fun c => c.denom != denom) = true := by
  simp only [List.all_eq_true]
  intro c hc
  simp only [List.mem_map, removeAssoc, List.mem_filter] at hc
  obtain ⟨p, ⟨hpl, hpne⟩, rfl⟩ := hc
  simpa using hpne

/-- C4: an increase_allowance followed by a decrease_allowance of the very
same coin, starting from a zero or absent balance for that denom, succeeds
and returns the balance for that denom to zero, the denom absent from the
follow-up allowance query. -/
theorem increase_then_decrease_cancels (env env2 : Contract.Env) (sender : String)
    (st : Contract.ContractState) (spender denom amt : String) (n : Nat)
    (expI expD : Option Expiration)
    (hadmin : sender ∈ st.admins) (hn : parseDecNat? amt = some n)
    (h0 : Contract.balanceOf st spender denom = 0) :
    ∃ st1 st2,
      Contract.execMsg env sender (ExecMsg.increase_allowance spender ⟨denom, amt⟩ expI) st
        = Except.ok st1
      ∧ Contract.execMsg env2 sender (ExecMsg.decrease_allowance spender ⟨denom, amt⟩ expD) st1
        = Except.ok st2
      ∧ Contract.balanceOf st2 spender denom = 0
      ∧ (Contract.allowanceQuery st2 spender).balance.all (fun c => c.denom != denom) = true := by
  cases hl : lookupAssoc st.allowances spender with
  | none =>
      refine ⟨Contract.withAllowance st spender ⟨[(denom, n)], expI.getD Expiration.never⟩, Contract.withAllowance (Contract.withAllowance st spender ⟨[(denom, n)], expI.getD Expiration.never⟩) spender ⟨[], expD.getD (expI.getD Expiration.never)⟩, ?_, ?_, ?_, ?_⟩
      · simp [Contract.execMsg, Contract.increaseRun, Contract.withAllowance, hadmin, hn, hl,
          setAssoc, lookupAssoc]
      · simp [Contract.execMsg, Contract.decreaseRun, Contract.withAllowance, hadmin, hn,
          lookupAssoc_set_self, setAssoc, lookupAssoc, removeAssoc]
      · simp [Contract.balanceOf, Contract.withAllowance, lookupAssoc_set_self, lookupAssoc]
      · simp [Contract.allowanceQuery, Contract.withAllowance, lookupAssoc_set_self]
  | some info =>
      have hcur0 : (lookupAssoc info.balance denom).getD 0 = 0 := by
        simpa [Contract.balanceOf, hl] using h0
      refine ⟨Contract.withAllowance st spender ⟨setAssoc info.balance denom n, expI.getD info.expires⟩, Contract.withAllowance (Contract.withAllowance st spender ⟨setAssoc info.balance denom n, expI.getD info.expires⟩) spender ⟨removeAssoc (setAssoc info.balance denom n) denom, expD.getD (expI.getD info.expires)⟩, ?_, ?_, ?_, ?_⟩
      · simp [Contract.execMsg, Contract.increaseRun, Contract.withAllowance, hadmin, hn, hl,
          hcur0]
      · simp [Contract.execMsg, Contract.decreaseRun, Contract.withAllowance, hadmin, hn,
          lookupAssoc_set_self, hcur0]
      · simp [Contract.balanceOf, Contract.withAllowance, lookupAssoc_set_self,
          lookupAssoc_remove_self]
      · simp [Contract.allowanceQuery, Contract.withAllowance, lookupAssoc_set_self,
          removeAssoc_map_all]

theorem increase_then_decrease_cancels_witness :
    ∃ st1 st2,
      Contract.execMsg ⟨0, 0⟩ "alice"
          (ExecMsg.increase_allowance "bob" ⟨"x", "100"⟩ none) ⟨["alice"], true, []⟩
        = Except.ok st1
      ∧ Contract.execMsg ⟨1, 1⟩ "alice"
          (ExecMsg.decrease_allowance "bob" ⟨"x", "100"⟩ none) st1
        = Except.ok st2
      ∧ Contract.balanceOf st2 "bob" "x" = 0
      ∧ (Contract.allowanceQuery st2 "bob").balance.all (fun c => c.denom != "x") = true :=
  increase_then_decrease_cancels ⟨0, 0⟩ ⟨1, 1⟩ "alice" ⟨["alice"], true, []⟩ "bob" "x" "100"
    100 none none (by decide) (by decide) (by decide)

/-- C5: a decrease_allowance asking for more than the current balance for
that denom is rejected as a RemoteExecutionError, and the atomically
applied transaction leaves the state exactly as it was. -/
theorem decrease_exceeding_rejected (env : Contract.Env) (sender : String)
    (st : Contract.ContractState) (spender denom amt : String) (n : Nat)
    (expires : Option Expiration)
    (hn : parseDecNat? amt = some n)
    (hover : Contract.balanceOf st spender denom < n) :
    Contract.execMsg env sender (ExecMsg.decrease_allowance spender ⟨denom, amt⟩ expires) st
        = Except.error Contract.RemoteError.remoteExecutionError
    ∧ Contract.applyAction st
        ⟨env, sender, ExecMsg.decrease_allowance spender ⟨denom, amt⟩ expires⟩ = st := by
  have herr : Contract.execMsg env sender
      (ExecMsg.decrease_allowance spender ⟨denom, amt⟩ expires) st
      = Except.error Contract.RemoteError.remoteExecutionError := by
    by_cases hadm : sender ∈ st.admins
    · cases hl : lookupAssoc st.allowances spender with
      | none => simp [Contract.execMsg, Contract.decreaseRun, hadm, hn, hl]
      | some info =>
          have hcur : (lookupAssoc info.balance denom).getD 0 < n := by
            simpa [Contract.balanceOf, hl] using hover
          simp [Contract.execMsg, Contract.decreaseRun, hadm, hn, hl, hcur]
    · simp [Contract.execMsg, Contract.decreaseRun, hadm]
  exact ⟨herr, by simp [Contract.applyAction, herr]⟩

theorem decrease_exceeding_rejected_witness :
    Contract.execMsg ⟨0, 0⟩ "alice" (ExecMsg.decrease_allowance "bob" ⟨"x", "101"⟩ none)
        ⟨["alice"], true, [("bob", ⟨[("x", 100)], Expiration.never⟩)]⟩
        = Except.error Contract.RemoteError.remoteExecutionError
    ∧ Contract.applyAction ⟨["alice"], true, [("bob", ⟨[("x", 100)], Expiration.never⟩)]⟩
        ⟨⟨0, 0⟩, "alice", ExecMsg.decrease_allowance "bob" ⟨"x", "101"⟩ none⟩
        = ⟨["alice"], true, [("bob", ⟨[("x", 100)], Expiration.never⟩)]⟩ :=
  decrease_exceeding_rejected ⟨0, 0⟩ "alice"
    ⟨["alice"], true, [("bob", ⟨[("x", 100)], Expiration.never⟩)]⟩ "bob" "x" "101" 101 none
    (by decide) (by decide)

/-- C6: an update_admins accepted while the set is mutable replaces the
whole admin set: the admin_list query then reports exactly the submitted
list, in order, still mutable. -/
theorem updateAdmins_replaces_set (env : Contract.Env) (sender : String)
    (st st2 : Contract.ContractState) (admins2 : List String)
    (h : Contract.execMsg env sender (ExecMsg.update_admins admins2) st = Except.ok st2) :
    Contract.adminList st2 = { admins := admins2, mutable := true } := by
  simp only [Contract.execMsg, Contract.updateAdminsRun] at h
  split at h
  case isTrue hc =>
      injection h with h2
      subst h2
      simp [Contract.adminList, hc.2]
  case isFalse => exact Except.noConfusion h

theorem updateAdmins_replaces_set_witness :
    Contract.adminList ⟨["a", "b"], true, []⟩
      = { admins := ["a", "b"], mutable := true } :=
  updateAdmins_replaces_set ⟨0, 0⟩ "alice" ⟨["alice"], true, []⟩ ⟨["a", "b"], true, []⟩
    ["a", "b"] (by decide)

/-- C7: each typed client operation submits exactly the documented JSON
message to the bound contract address - allowance with the spender,
admin_list, freeze, update_admins with the list, increase_allowance and
decrease_allowance with spender, amount and expires, execute wrapping the
msgs - and every mutating operation returns the transactionHash field of
the response. -/
theorem client_messages_exact (sa ca : String) (addr : Option String)
    (adm : List String) (sp : String) (c : Coin) (e : Expiration)
    (eo : Option Expiration) (msgs : List CosmosMsg) :
    (∀ q : String → QueryMsg → AllowanceResponse,
      CW1.allowance q sa ca addr = q ca (QueryMsg.allowance (jsOrElse addr sa)))
    ∧ encodeQuery (QueryMsg.allowance sp)
        = Json.obj [("allowance", Json.obj [("spender", Json.str sp)])]
    ∧ (∀ q2 : String → QueryMsg → AdminListResponse,
      CW1.admins q2 ca = q2 ca QueryMsg.admin_list)
    ∧ encodeQuery QueryMsg.admin_list = Json.obj [("admin_list", Json.obj [])]
    ∧ (∀ ex : String → ExecMsg → ExecuteResult,
      CW1.freeze ex ca = (ex ca ExecMsg.freeze).transactionHash)
    ∧ encodeExec ExecMsg.freeze = Json.obj [("freeze", Json.obj [])]
    ∧ (∀ ex : String → ExecMsg → ExecuteResult,
      CW1.updateAdmins ex ca adm = (ex ca (ExecMsg.update_admins adm)).transactionHash)
    ∧ encodeExec (ExecMsg.update_admins adm)
        = Json.obj [("update_admins", Json.obj [("admins", Json.arr (adm.map Json.str))])]
    ∧ (∀ ex : String → ExecMsg → ExecuteResult,
      CW1.execute ex ca msgs = (ex ca (ExecMsg.execute msgs)).transactionHash)
    ∧ encodeExec (ExecMsg.execute msgs)
        = Json.obj [("execute", Json.obj [("msgs", Json.arr (msgs.map encodeCosmosMsg))])]
    ∧ (∀ ex : String → ExecMsg → ExecuteResult,
      CW1.increaseAllowance ex ca sp c eo
        = (ex ca (ExecMsg.increase_allowance sp c eo)).transactionHash)
    ∧ encodeExec (ExecMsg.increase_allowance sp c (some e))
        = Json.obj [("increase_allowance", Json.obj
            [("spender", Json.str sp), ("amount", encodeCoin c),
             ("expires", encodeExpiration e)])]
    ∧ (∀ ex : String → ExecMsg → ExecuteResult,
      CW1.decreaseAllowance ex ca sp c eo
        = (ex ca (ExecMsg.decrease_allowance sp c eo)).transactionHash)
    ∧ encodeExec (ExecMsg.decrease_allowance sp c (some e))
        = Json.obj [("decrease_allowance", Json.obj
            [("spender", Json.str sp), ("amount", encodeCoin c),
             ("expires", encodeExpiration e)])] :=
  ⟨fun _ => rfl, rfl, fun _ => rfl, rfl, fun _ => rfl, rfl, fun _ => rfl, rfl,
    fun _ => rfl, rfl, fun _ => rfl, rfl, fun _ => rfl, rfl⟩

/-- C8: with an existing keyfile and a failing decrypt, loadOrCreateWallet
raises the error and leaves the filesystem untouched; the keyfile is only
ever written on the path where no file could be read, and there it stores
the freshly generated, newly encrypted identity. -/
theorem loadOrCreateWallet_never_overwrites (wops : WalletOps) (opts : Options) (fs : FS)
    (filename password enc : String)
    (hread : FS.read fs filename = some enc)
    (hbad : wops.deserialize enc password = none) :
    loadOrCreateWallet wops opts fs filename password = (fs, none)
    ∧ (∀ fs2 : FS, (loadOrCreateWallet wops opts fs2 filename password).1 ≠ fs2 →
        FS.read fs2 filename = none)
    ∧ (∀ fs2 : FS, FS.read fs2 filename = none →
        loadOrCreateWallet wops opts fs2 filename password
          = (FS.write fs2 filename
               (wops.serialize (wops.generate 12 opts.hdPath opts.bech32prefix) password),
             some (wops.generate 12 opts.hdPath opts.bech32prefix))) := by
  refine ⟨by simp [loadOrCreateWallet, hread, hbad], ?_, ?_⟩
  · intro fs2 hne
    cases hr : FS.read fs2 filename with
    | none => rfl
    | some e2 =>
        exfalso
        apply hne
        cases hd : wops.deserialize e2 password <;> simp [loadOrCreateWallet, hr, hd]
  · intro fs2 hr
    simp [loadOrCreateWallet, hr]

theorem loadOrCreateWallet_never_overwrites_witness :
    loadOrCreateWallet
        ⟨fun _ _ _ => ⟨"mn"⟩, fun _ _ => "enc2", fun _ _ => none, fun _ => "addr"⟩
        (coralnetOptions ⟨fun _ => [], "/home/u", fun a b => a ++ "/" ++ b⟩)
        ⟨[("/home/u/.coral.key", "blob")]⟩ "/home/u/.coral.key" "pw"
      = (⟨[("/home/u/.coral.key", "blob")]⟩, none)
    ∧ (∀ fs2 : FS,
        (loadOrCreateWallet
            ⟨fun _ _ _ => ⟨"mn"⟩, fun _ _ => "enc2", fun _ _ => none, fun _ => "addr"⟩
            (coralnetOptions ⟨fun _ => [], "/home/u", fun a b => a ++ "/" ++ b⟩)
            fs2 "/home/u/.coral.key" "pw").1 ≠ fs2 →
        FS.read fs2 "/home/u/.coral.key" = none)
    ∧ (∀ fs2 : FS, FS.read fs2 "/home/u/.coral.key" = none →
        loadOrCreateWallet
            ⟨fun _ _ _ => ⟨"mn"⟩, fun _ _ => "enc2", fun _ _ => none, fun _ => "addr"⟩
            (coralnetOptions ⟨fun _ => [], "/home/u", fun a b => a ++ "/" ++ b⟩)
            fs2 "/home/u/.coral.key" "pw"
          = (FS.write fs2 "/home/u/.coral.key" "enc2", some ⟨"mn"⟩)) :=
  loadOrCreateWallet_never_overwrites
    ⟨fun _ _ _ => ⟨"mn"⟩, fun _ _ => "enc2", fun _ _ => none, fun _ => "addr"⟩
    (coralnetOptions ⟨fun _ => [], "/home/u", fun a b => a ++ "/" ++ b⟩)
    ⟨[("/home/u/.coral.key", "blob")]⟩ "/home/u/.coral.key" "pw" "blob" (by decide) rfl

/-- C9: setup and recoverMnemonic read only the default keyfile path and
the faucet fields from the options argument; the wallet is built and the
client connected against the fixed coralnetOptions constant, so replacing
the wallet and connection fields (httpUrl, networkId, feeToken, gasPrice,
bech32prefix, hdPath) of the argument changes nothing, and a successfully
constructed client always carries the coralnetOptions endpoint and fee
table. -/
theorem setup_uses_fixed_coralnet_options (wops : WalletOps) (ext : ExternalEnv)
    (accountExists : String → Bool) (o : Options) (fs : FS) (password : String)
    (filename : Option String) (u nid ft : String) (g : ℚ) (b : String)
    (hd : List Slip10RawIndex) :
    setup wops ext accountExists o fs password filename
      = setup wops ext accountExists
          { o with httpUrl := u, networkId := nid, feeToken := ft, gasPrice := g
                 , bech32prefix := b, hdPath := hd } fs password filename
    ∧ recoverMnemonic wops ext o fs password filename
      = recoverMnemonic wops ext
          { o with httpUrl := u, networkId := nid, feeToken := ft, gasPrice := g
                 , bech32prefix := b, hdPath := hd } fs password filename
    ∧ (∀ (c : SigningCosmWasmClient) (fc : Option FaucetCall),
        (setup wops ext accountExists o fs password filename).2 = some (c, fc) →
          c.httpUrl = (coralnetOptions ext).httpUrl
          ∧ c.feeTable = buildFeeTable (coralnetOptions ext)
          ∧ c.wallet = (loadOrCreateWallet wops (coralnetOptions ext) fs
              (jsOrElse filename o.defaultKeyFile) password).2.getD c.wallet) := by
  refine ⟨rfl, rfl, ?_⟩
  intro c fc h
  rcases hlw : loadOrCreateWallet wops (coralnetOptions ext) fs
      (jsOrElse filename o.defaultKeyFile) password with ⟨fs2, w⟩
  cases w with
  | none => simp [setup, hlw] at h
  | some wallet =>
      simp only [setup, hlw, Option.some.injEq, Prod.mk.injEq] at h
      obtain ⟨hc, hf⟩ := h
      subst hc
      exact ⟨rfl, rfl, by simp [hlw, connect]⟩

/-- C10: the allowance query treats an empty-string spender like an absent
one - both query the client sender address - while a non-empty spender is
queried verbatim. -/
theorem allowance_empty_spender_defaults (q : String → QueryMsg → AllowanceResponse)
    (sa ca s : String) (h : s ≠ "") :
    CW1.allowance q sa ca (some "") = q ca (QueryMsg.allowance sa)
    ∧ CW1.allowance q sa ca none = q ca (QueryMsg.allowance sa)
    ∧ CW1.allowance q sa ca (some s) = q ca (QueryMsg.allowance s) := by
  refine ⟨rfl, rfl, ?_⟩
  simp [CW1.allowance, jsOrElse, h]

theorem allowance_empty_spender_defaults_witness :
    CW1.allowance (fun _ _ => ⟨[], Expiration.never⟩) "alice" "contract" (some "")
        = (fun (_ : String) (_ : QueryMsg) => (⟨[], Expiration.never⟩ : AllowanceResponse))
            "contract" (QueryMsg.allowance "alice")
    ∧ CW1.allowance (fun _ _ => ⟨[], Expiration.never⟩) "alice" "contract" none
        = (fun (_ : String) (_ : QueryMsg) => (⟨[], Expiration.never⟩ : AllowanceResponse))
            "contract" (QueryMsg.allowance "alice")
    ∧ CW1.allowance (fun _ _ => ⟨[], Expiration.never⟩) "alice" "contract" (some "bob")
        = (fun (_ : String) (_ : QueryMsg) => (⟨[], Expiration.never⟩ : AllowanceResponse))
            "contract" (QueryMsg.allowance "bob") :=
  allowance_empty_spender_defaults (fun _ _ => ⟨[], Expiration.never⟩) "alice" "contract"
    "bob" (by decide)
